import Mathlib

/-!
# go-api-boilerplate: command handlers, dispatch, readiness, panic recovery

A shallow embedding of four Go source files:

* `cmd/auth/internal/domain/client/commands.go` (namespace `client`)
* `pkg/user/interfaces/grpc/server.go` (namespace `grpc`)
* `cmd/user/internal/interfaces/http/handlers/health.go` (namespace `handlers`)
* `pkg/http/recover/panic_recover.go` (namespace `recover`)

Effectful Go code is embedded as a function that returns the ordered list of
observable actions it performs (calls on collaborators, channel sends, writes
to the response) together with its way of terminating: normal return or an
unrecovered panic.  Collaborators that are Go interfaces are record fields, so
every theorem quantifies over all their behaviours.  What a channel does with
a send (take it, block, or panic when closed) is the function `Go.Chan.send`;
the command handlers take the channel `out` as an argument and their sends go
through it.
-/

namespace Go

/-- Value carried by a panic, as a deferred `recover()` returns it.  A value of
this type is never the nil interface: run-time faults carry a `runtime.Error`,
and from Go 1.21 on `panic(nil)` is recovered as a `*runtime.PanicNilError`. -/
structure PanicValue where
  text : String
deriving DecidableEq, Repr

/-- Modelled from the spec: the kinds of the error taxonomy (package `errors`
is not among the source files); `Internal` is the constant `errors.INTERNAL`
that `server.go` names. -/
inductive ErrKind where
  | DuplicateRegistration
  | HandlerNotFound
  | ConcurrencyConflict
  | NotFound
  | InvalidState
  | Internal
deriving DecidableEq, Repr

/-- Status codes of `google.golang.org/grpc/codes` that the server uses. -/
inductive Codes where
  | NotFound
  | Internal
deriving DecidableEq, Repr

/-- Non-nil Go `error` values, by the expression that builds them. -/
inductive GoError where
  /-- An error value handed back by a collaborator, with the kind it carries -/
  | typed (kind : ErrKind) (tag : Nat)
  /-- The call `fmt.Errorf(format, r)`. -/
  | errorf (format : String) (arg : PanicValue)
  /-- The call `errors.Wrap(err)`. -/
  | wrap (inner : GoError)
  /-- The call `errors.New(message)`. -/
  | new (message : String)
  /-- The call `errors.Newf(code, format, r)`. -/
  | newf (code : ErrKind) (format : String) (arg : PanicValue)
  /-- The call `status.Error(code, message)`. -/
  | status (code : Codes) (message : String)
deriving DecidableEq, Repr

/-- Outcome of a call: it returns a value or it panics. -/
inductive Res (α : Type) where
  | ok (a : α)
  | panic (v : PanicValue)
deriving DecidableEq, Repr

/-- A finished run of a piece of Go code: the actions performed, in order, and
how the run ended. -/
structure Run (Act α : Type) where
  trace : List Act
  res : Res α
deriving DecidableEq, Repr

/-- A run that does nothing and returns `a`. -/
def Run.pure {Act α : Type} (a : α) : Run Act α := ⟨[], Res.ok a⟩

/-- Sequencing: the second part runs only when the first returned; a panic
skips the rest. -/
def Run.bind {Act α β : Type} (m : Run Act α) (f : α → Run Act β) : Run Act β :=
  match m.res with
  | Res.ok a => ⟨m.trace ++ (f a).trace, (f a).res⟩
  | Res.panic v => ⟨m.trace, Res.panic v⟩

instance {Act : Type} : Monad (Run Act) where
  pure := Run.pure
  bind := Run.bind

/-- One observable action that cannot fail. -/
def Run.act {Act : Type} (a : Act) : Run Act Unit := ⟨[a], Res.ok ()⟩

/-- A call on a collaborator: the call is recorded, its outcome is the
collaborator's. -/
def Run.call {Act α : Type} (a : Act) (r : Res α) : Run Act α := ⟨[a], r⟩

/-- The value `recover()` yields inside a deferred function once `body` ended:
nil when the body returned, the panic value when it panicked. -/
def recovered {Act α : Type} (body : Run Act α) : Option PanicValue :=
  match body.res with
  | Res.ok _ => none
  | Res.panic v => some v

/-- Go `defer f()` where `f` starts by calling `recover()`: `f` runs after the
body whether it returned or panicked, the panic is stopped by the `recover()`
call, and the function ends the way `f` ends. -/
def Run.deferRecover {Act : Type} (body : Run Act Unit)
    (f : Option PanicValue → Run Act Unit) : Run Act Unit :=
  ⟨body.trace ++ (f (recovered body)).trace, (f (recovered body)).res⟩

/-- The operand of the `%T` verb: the Go type of a value, package-qualified. -/
structure GoType where
  pkg : String
  name : String
deriving DecidableEq, Repr

/-- The call `fmt.Sprintf("%T", c)` for a value of type `t`. -/
def SprintfT (t : GoType) : String := t.pkg ++ "." ++ t.name

/-- A Go channel of errors: its capacity, the values buffered and whether it
has been closed. -/
structure Chan where
  cap : Nat
  buf : List (Option GoError)
  closed : Bool
deriving DecidableEq, Repr

/-- The call `make(chan error, cap)`; `make(chan error)` is `make 0`. -/
def make (cap : Nat) : Chan := ⟨cap, [], false⟩

/-- The call `close(ch)`. -/
def Chan.close (ch : Chan) : Chan := { ch with closed := true }

/-- What a send statement does. -/
inductive SendOutcome where
  /-- The value is taken, the channel is left in the given state -/
  | accepted (ch : Chan)
  /-- The sender blocks: no room in the buffer and nobody receiving -/
  | blocked
  /-- The run-time panic `send on closed channel`. -/
  | fault
deriving DecidableEq, Repr

/-- The statement `ch <- v`, by the rules of the language: a send on a closed
channel panics; otherwise the value goes into the buffer when there is room, is
handed over when a goroutine is receiving, and the sender blocks when neither
holds. -/
def Chan.send (ch : Chan) (v : Option GoError) (receiving : Bool) : SendOutcome :=
  if ch.closed then SendOutcome.fault
  else if ch.buf.length < ch.cap then SendOutcome.accepted { ch with buf := ch.buf ++ [v] }
  else if receiving then SendOutcome.accepted ch
  else SendOutcome.blocked

/-- A send on this channel is taken: the channel is open and has room in its
buffer or a goroutine receiving. -/
def Chan.takes (ch : Chan) (receiving : Bool) : Prop :=
  ch.closed = false ∧ (ch.buf.length < ch.cap ∨ receiving = true)

/-- The value of the run-time panic that a send on a closed channel raises. -/
def sendOnClosed : PanicValue := ⟨"send on closed channel"⟩

/-- How a piece of code that sends on a channel ends: it returns a value, it
panics, or it blocks for good on a send that nobody takes. -/
inductive Step (α : Type) where
  | ok (a : α)
  | panic (v : PanicValue)
  | blocked
deriving DecidableEq, Repr

/-- The outcome of a collaborator call as a step of the caller. -/
def Res.toStep {α : Type} : Res α → Step α
  | Res.ok a => Step.ok a
  | Res.panic v => Step.panic v

/-- A run of code that sends on a channel: the actions performed, in order, and
how the run ended. -/
structure Proc (Act α : Type) where
  trace : List Act
  res : Step α
deriving DecidableEq, Repr

/-- A run that does nothing and returns `a`. -/
def Proc.pure {Act α : Type} (a : α) : Proc Act α := ⟨[], Step.ok a⟩

/-- Sequencing: the second part runs only when the first returned; a panic or a
blocked send skips the rest. -/
def Proc.bind {Act α β : Type} (m : Proc Act α) (f : α → Proc Act β) : Proc Act β :=
  match m.res with
  | Step.ok a => ⟨m.trace ++ (f a).trace, (f a).res⟩
  | Step.panic v => ⟨m.trace, Step.panic v⟩
  | Step.blocked => ⟨m.trace, Step.blocked⟩

instance {Act : Type} : Monad (Proc Act) where
  pure := Proc.pure
  bind := Proc.bind

/-- One observable action that cannot fail. -/
def Proc.act {Act : Type} (a : Act) : Proc Act Unit := ⟨[a], Step.ok ()⟩

/-- A call on a collaborator: the call is recorded, its outcome is the
collaborator's. -/
def Proc.call {Act α : Type} (a : Act) (r : Res α) : Proc Act α := ⟨[a], r.toStep⟩

/-- The value `recover()` yields inside a deferred function once `body` ended:
the panic value when it panicked, nil otherwise. -/
def Proc.recovered {Act α : Type} (body : Proc Act α) : Option PanicValue :=
  match body.res with
  | Step.ok _ => none
  | Step.panic v => some v
  | Step.blocked => none

/-- Go `defer f()` where `f` starts by calling `recover()`: `f` runs after the
body returned or panicked, the panic of the body is stopped by the `recover()`
call, and the function ends the way `f` ends, so a panic raised inside `f`
leaves the function.  A body blocked on a send never reaches its deferred
calls. -/
def Proc.deferRecover {Act : Type} (body : Proc Act Unit)
    (f : Option PanicValue → Proc Act Unit) : Proc Act Unit :=
  match body.res with
  | Step.ok _ => ⟨body.trace ++ (f none).trace, (f none).res⟩
  | Step.panic v => ⟨body.trace ++ (f (some v)).trace, (f (some v)).res⟩
  | Step.blocked => body

end Go

/-! ## Shared value types -/

/-- A `uuid.UUID` value, identified by its canonical text form. -/
structure UUID where
  canonical : String
deriving DecidableEq, Repr

/-- The call `id.String()`. -/
def UUID.String (id : UUID) : String := id.canonical

/-- Flags of package `executioncontext`; the handlers use `LIVE`. -/
inductive executioncontext.Flag where
  | LIVE
deriving DecidableEq, Repr

/-- A `context.Context`: `state` is nil while the context is live and holds
what `ctx.Err()` reports once `ctx.Done()` is closed; `flags` are the execution
flags attached so far. -/
structure context.Context where
  state : Option Go.GoError
  flags : List executioncontext.Flag
deriving DecidableEq, Repr

/-- The call `ctx.Err()`. -/
def context.Context.Err (ctx : context.Context) : Option Go.GoError := ctx.state

/-- The call `executioncontext.WithFlag(ctx, flag)`: a derived context with the
flag attached. -/
def executioncontext.WithFlag (ctx : context.Context) (flag : executioncontext.Flag) :
    context.Context :=
  { ctx with flags := flag :: ctx.flags }

/-! ## commands.go -/

namespace client

open Go

/-- The aggregate `Client` of the domain package, identified by its state. -/
structure Client where
  state : Nat
deriving DecidableEq, Repr

/-- An `oauth2.ClientInfo` value. -/
structure ClientInfo where
  val : Nat
deriving DecidableEq, Repr

/-- Remove command. -/
structure Remove where
  ID : UUID
deriving DecidableEq, Repr

/-- Create command. -/
structure Create where
  ClientInfo : ClientInfo
deriving DecidableEq, Repr

/-- The Go type of any `Remove` value. -/
def Remove.goType (_c : Remove) : GoType := ⟨"client", "Remove"⟩

/-- The Go type of any `Create` value. -/
def Create.goType (_c : Create) : GoType := ⟨"client", "Create"⟩

/-- GetName returns command name. -/
def Remove.GetName (c : Remove) : String := SprintfT c.goType

/-- GetName returns command name. -/
def Create.GetName (c : Create) : String := SprintfT c.goType

/-- The interface `Repository`: `Get` returns `(client, err)`, `Save` returns an
error or nil; either may panic. -/
structure Repository where
  Get : UUID → Res (Client × Option GoError)
  Save : context.Context → Client → Res (Option GoError)

/-- The methods of the aggregate that the handlers call: the constructor `New`
and the mutations `Remove` and `Create`, which return the mutated aggregate and
an error or nil, or panic. -/
structure Aggregate where
  New : Client
  Remove : Client → Res (Client × Option GoError)
  Create : Client → ClientInfo → Res (Client × Option GoError)

/-- Observable actions of a command handler. -/
inductive Act where
  | repositoryGet (id : UUID)
  | clientRemove (c : Client)
  | clientCreate (c : Client) (info : ClientInfo)
  | repositorySave (ctx : context.Context) (c : Client)
  /-- The statement `out <- v` when the channel takes the value. -/
  | send (v : Option GoError)
  /-- The statement `out <- v` when it panics or blocks: the value is not
  taken. -/
  | sendFailed (v : Option GoError)
  /-- The call `log.Printf` that prints `debug.Stack()`. -/
  | logStack
deriving DecidableEq, Repr

/-- The values delivered on `out`, in order. -/
def sends : List Act → List (Option GoError)
  | [] => []
  | Act.send v :: rest => v :: sends rest
  | _ :: rest => sends rest

/-- The aggregates handed to `repository.Save`, in order. -/
def saves : List Act → List (context.Context × Client)
  | [] => []
  | Act.repositorySave ctx c :: rest => (ctx, c) :: saves rest
  | _ :: rest => saves rest

/-- Whether an action is a send statement, taken or not. -/
def Act.isSend : Act → Bool
  | Act.send _ => true
  | Act.sendFailed _ => true
  | _ => false

/-- No send statement is run after one that the channel took. -/
def noSendAfterTaken : List Act → Bool
  | [] => true
  | Act.send _ :: rest => rest.all (fun a => !a.isSend)
  | _ :: rest => noSendAfterTaken rest

/-- The statement `out <- v` of a handler.  `out` is the channel as the handler
finds it and `receiving` tells whether a goroutine is receiving on it: the
value is taken, or the send panics on a closed channel, or the handler blocks.
On every path of the handlers no send statement follows one that was taken
(`noSendAfterTaken`), so each send finds the channel as it was handed in. -/
def chanSend (out : Chan) (receiving : Bool) (v : Option GoError) : Proc Act Unit :=
  match out.send v receiving with
  | SendOutcome.accepted _ => ⟨[Act.send v], Step.ok ()⟩
  | SendOutcome.fault => ⟨[Act.sendFailed v], Step.panic sendOnClosed⟩
  | SendOutcome.blocked => ⟨[Act.sendFailed v], Step.blocked⟩

/-- The deferred `recoverCommandHandler(out)`; `r` is what `recover()` returns. -/
def recoverCommandHandler (out : Chan) (receiving : Bool) (r : Option PanicValue) :
    Proc Act Unit :=
  match r with
  | some v => do
      chanSend out receiving (some (GoError.wrap
        (GoError.errorf "[CommandHandler] Recovered in %v" v)))
      Proc.act Act.logStack
  | none => pure ()

/-- The body of the handler `OnRemove` builds, below its `defer`. -/
def OnRemove.body (repository : Repository) (agg : Aggregate) (ctx : context.Context)
    (c : Remove) (out : Chan) (receiving : Bool) : Proc Act Unit := do
  let (client, err) ← Proc.call (Act.repositoryGet c.ID) (repository.Get c.ID)
  match err with
  | some e => chanSend out receiving (some (GoError.wrap e))
  | none =>
    let (client, err) ← Proc.call (Act.clientRemove client) (agg.Remove client)
    match err with
    | some e => chanSend out receiving (some (GoError.wrap e))
    | none =>
      let saved ← Proc.call
        (Act.repositorySave (executioncontext.WithFlag ctx executioncontext.Flag.LIVE) client)
        (repository.Save (executioncontext.WithFlag ctx executioncontext.Flag.LIVE) client)
      chanSend out receiving saved

/-- OnRemove creates command handler: the function `fn(ctx, c, out)`. -/
def OnRemove (repository : Repository) (agg : Aggregate) (ctx : context.Context) (c : Remove)
    (out : Chan) (receiving : Bool) : Proc Act Unit :=
  Proc.deferRecover (OnRemove.body repository agg ctx c out receiving)
    (recoverCommandHandler out receiving)

/-- The body of the handler `OnCreate` builds, below its `defer`. -/
def OnCreate.body (repository : Repository) (agg : Aggregate) (ctx : context.Context)
    (c : Create) (out : Chan) (receiving : Bool) : Proc Act Unit := do
  let (client, err) ← Proc.call (Act.clientCreate agg.New c.ClientInfo)
    (agg.Create agg.New c.ClientInfo)
  match err with
  | some e => chanSend out receiving (some (GoError.wrap e))
  | none =>
    let saved ← Proc.call
      (Act.repositorySave (executioncontext.WithFlag ctx executioncontext.Flag.LIVE) client)
      (repository.Save (executioncontext.WithFlag ctx executioncontext.Flag.LIVE) client)
    chanSend out receiving saved

/-- OnCreate creates command handler: the function `fn(ctx, c, out)`. -/
def OnCreate (repository : Repository) (agg : Aggregate) (ctx : context.Context) (c : Create)
    (out : Chan) (receiving : Bool) : Proc Act Unit :=
  Proc.deferRecover (OnCreate.body repository agg ctx c out receiving)
    (recoverCommandHandler out receiving)

/-- A collaborator call made by the `OnRemove` handler panics with `v`. -/
def RemoveFault (repository : Repository) (agg : Aggregate) (ctx : context.Context)
    (c : Remove) (v : PanicValue) : Prop :=
  repository.Get c.ID = Res.panic v ∨
  (∃ cl, repository.Get c.ID = Res.ok (cl, none) ∧ agg.Remove cl = Res.panic v) ∨
  (∃ cl cl2, repository.Get c.ID = Res.ok (cl, none) ∧ agg.Remove cl = Res.ok (cl2, none) ∧
    repository.Save (executioncontext.WithFlag ctx executioncontext.Flag.LIVE) cl2 = Res.panic v)

/-- A collaborator call made by the `OnCreate` handler panics with `v`. -/
def CreateFault (repository : Repository) (agg : Aggregate) (ctx : context.Context)
    (c : Create) (v : PanicValue) : Prop :=
  agg.Create agg.New c.ClientInfo = Res.panic v ∨
  (∃ cl2, agg.Create agg.New c.ClientInfo = Res.ok (cl2, none) ∧
    repository.Save (executioncontext.WithFlag ctx executioncontext.Flag.LIVE) cl2 = Res.panic v)

end client

/-! ## server.go -/

namespace grpc

open Go

/-- The message `proto.DispatchCommandRequest`. -/
structure DispatchCommandRequest where
  Name : String
  Payload : List Nat
deriving DecidableEq, Repr

/-- The getter `r.GetName()`. -/
def DispatchCommandRequest.GetName (r : DispatchCommandRequest) : String := r.Name

/-- The getter `r.GetPayload()`. -/
def DispatchCommandRequest.GetPayload (r : DispatchCommandRequest) : List Nat := r.Payload

/-- A typed domain command as `buildDomainCommand` returns it: its Go type and
its decoded fields. -/
structure DomainCommand where
  goType : GoType
  fields : List Nat
deriving DecidableEq, Repr

/-- The message `empty.Empty`. -/
structure Empty where
deriving DecidableEq, Repr

/-- Observable actions of the goroutine `DispatchCommand` starts. -/
inductive Act where
  | buildDomainCommand (ctx : context.Context) (name : String) (payload : List Nat)
  | publish (ctx : context.Context) (name : String) (c : DomainCommand)
  /-- The statement `out <- v`. -/
  | send (v : Option GoError)
deriving DecidableEq, Repr

/-- The values sent on `out`, in order. -/
def sends : List Act → List (Option GoError)
  | [] => []
  | Act.send v :: rest => v :: sends rest
  | _ :: rest => sends rest

/-- How many times `commandBus.Publish` is called. -/
def publishCalls : List Act → Nat
  | [] => 0
  | Act.publish _ _ _ :: rest => publishCalls rest + 1
  | _ :: rest => publishCalls rest

/-- The interface `commandbus.CommandBus`, method `Publish(ctx, name, c, out)`:
it has no return value; what is observed of it is the values that the bus and
the handler it runs write to `out`, and whether the call panics. -/
structure CommandBus where
  Publish : context.Context → String → DomainCommand → List (Option GoError) × Res Unit

/-- The struct `userServer`, with the field the dispatch uses. -/
structure userServer where
  commandBus : CommandBus

/-- The package function `buildDomainCommand(ctx, name, payload)`, declared in
another file of the package: it returns `(c, err)` or panics. -/
abbrev Builder := context.Context → String → List Nat → Res (DomainCommand × Option GoError)

/-- The call `s.commandBus.Publish(ctx, name, c, out)` with what it writes to `out`. -/
def callPublish (s : userServer) (ctx : context.Context) (name : String) (c : DomainCommand) :
    Run Act Unit :=
  ⟨Act.publish ctx name c :: (s.commandBus.Publish ctx name c).1.map Act.send,
   (s.commandBus.Publish ctx name c).2⟩

/-- The function literal that `DispatchCommand` runs with `go`. -/
def DispatchCommand.worker (s : userServer) (buildDomainCommand : Builder) (ctx : context.Context)
    (r : DispatchCommandRequest) : Run Act Unit :=
  Run.deferRecover
    (do
      let (c, err) ← Run.call (Act.buildDomainCommand ctx r.GetName r.GetPayload)
        (buildDomainCommand ctx r.GetName r.GetPayload)
      match err with
      | some e => Run.act (Act.send (some e))
      | none => callPublish s ctx (SprintfT c.goType) c)
    (fun rec =>
      match rec with
      | some v => Run.act (Act.send (some (GoError.newf ErrKind.Internal "Recovered in f %v" v)))
      | none => pure ())

/-- The case of the `select` statement that fires. -/
inductive Fired where
  /-- The case `<-ctx.Done()`. -/
  | ctxDone
  /-- The case `err := <-out`. -/
  | received (err : Option GoError)
deriving DecidableEq, Repr

/-- The `select` over `ctx.Done()` and `out`.  `offered` is the value a sender
brings to `out`, if any ever does; `ctxFirst` tells that the context is done
before that value arrives (or that the context case is picked when both are
ready).  With neither case ever ready the statement blocks for good: `none`. -/
def selectCase (ctx : context.Context) (offered : Option (Option GoError)) (ctxFirst : Bool) :
    Option Fired :=
  match ctx.state, offered with
  | none, none => none
  | some _, none => some Fired.ctxDone
  | none, some v => some (Fired.received v)
  | some _, some v => if ctxFirst then some Fired.ctxDone else some (Fired.received v)

/-- What a call of `DispatchCommand` leaves behind: the two return values and
the result channel after the deferred `close(out)`. -/
structure DispatchReturn where
  response : Option Empty
  err : Option GoError
  out : Chan
deriving DecidableEq, Repr

/-- DispatchCommand implements proto.UserServiceServer interface.  The result
is `none` when the `select` never fires. -/
def DispatchCommand (s : userServer) (buildDomainCommand : Builder) (ctx : context.Context)
    (r : DispatchCommandRequest) (ctxFirst : Bool) : Option DispatchReturn :=
  let out := Go.make 0
  match selectCase ctx (sends (DispatchCommand.worker s buildDomainCommand ctx r).trace).head?
      ctxFirst with
  | none => none
  | some Fired.ctxDone => some ⟨some Empty.mk, ctx.Err, out.close⟩
  | some (Fired.received err) => some ⟨some Empty.mk, err, out.close⟩

/-- The 32-bit signed value of an integer, wrapping as Go `int32` arithmetic does. -/
def wrap32 (x : Int) : Int := (x + 2 ^ 31) % 2 ^ 32 - 2 ^ 31

/-- The message `proto.ListUserRequest`; both fields are `int32`. -/
structure ListUserRequest where
  Page : Int
  Limit : Int
deriving DecidableEq, Repr

/-- The getter `r.GetPage()`. -/
def ListUserRequest.GetPage (r : ListUserRequest) : Int := r.Page

/-- The getter `r.GetLimit()`. -/
def ListUserRequest.GetLimit (r : ListUserRequest) : Int := r.Limit

/-- A user row as the MySQL repository returns it. -/
structure mysqlUser where
  ID : UUID
  Email : String
  FacebookID : String
  GoogleID : String
deriving DecidableEq, Repr

/-- The message `proto.User`. -/
structure User where
  Id : String
  Email : String
  FacebookId : String
  GoogleId : String
deriving DecidableEq, Repr

/-- The message `proto.ListUserResponse`. -/
structure ListUserResponse where
  Users : List User
  Total : Int
deriving DecidableEq, Repr

/-- The database behind `ListUsers`: the count query scanned into an `int32`
together with the scan error or nil, and `FindAll(ctx, limit, offset)` of the
MySQL repository. -/
structure Store where
  Count : context.Context → Int × Option GoError
  FindAll : context.Context → Int → Int → List mysqlUser × Option GoError

/-- Calls `ListUsers` makes on the database. -/
inductive DbAct where
  | count (ctx : context.Context)
  | findAll (ctx : context.Context) (limit : Int) (offset : Int)
deriving DecidableEq, Repr

/-- The two return values of `ListUsers` and the database calls it made. -/
structure ListReturn where
  calls : List DbAct
  response : Option ListUserResponse
  err : Option GoError
deriving DecidableEq, Repr

/-- The offset expression `(r.GetPage() * r.GetLimit()) - r.GetLimit()` on `int32`. -/
def ListUsers.offset (r : ListUserRequest) : Int :=
  wrap32 (wrap32 (r.GetPage * r.GetLimit) - r.GetLimit)

/-- The body of the `for _, u := range results` loop: one `append`. -/
def ListUsers.step (users : List User) (u : mysqlUser) : List User :=
  users ++ [{ Id := u.ID.String, Email := u.Email, FacebookId := u.FacebookID,
              GoogleId := u.GoogleID }]

/-- ListUsers implements proto.UserServiceServer interface. -/
def ListUsers (db : Store) (ctx : context.Context) (r : ListUserRequest) : ListReturn :=
  let users : List User := []
  match db.Count ctx with
  | (_, some _) =>
    ⟨[DbAct.count ctx], none, some (GoError.status Codes.Internal "Failed to count users")⟩
  | (totalUsers, none) =>
    if totalUsers < 1 then
      ⟨[DbAct.count ctx], some { Users := users, Total := 0 }, none⟩
    else
      let offset := ListUsers.offset r
      match db.FindAll ctx r.GetLimit offset with
      | (_, some _) =>
        ⟨[DbAct.count ctx, DbAct.findAll ctx r.GetLimit offset], none,
          some (GoError.status Codes.Internal "Failed to fetch users")⟩
      | (results, none) =>
        ⟨[DbAct.count ctx, DbAct.findAll ctx r.GetLimit offset],
          some { Users := results.foldl ListUsers.step users, Total := totalUsers }, none⟩

end grpc

/-! ## Package net/http, as far as the handlers use it -/

namespace http

/-- The constant `http.StatusNoContent`. -/
def StatusNoContent : Nat := 204

/-- The constant `http.StatusInternalServerError`. -/
def StatusInternalServerError : Nat := 500

/-- The function `http.StatusText` on the codes these files use. -/
def StatusText (code : Nat) : String :=
  if code = 204 then "No Content"
  else if code = 500 then "Internal Server Error"
  else ""

/-- An incoming `*http.Request`, with the context `r.Context()` yields. -/
structure Request where
  ctx : context.Context
deriving DecidableEq, Repr

/-- The call `r.Context()`. -/
def Request.Context (r : Request) : context.Context := r.ctx

end http

/-! ## health.go -/

namespace handlers

open Go

/-- A `*sql.DB` handle: `PingContext` returns an error or nil. -/
structure DB where
  PingContext : context.Context → Option GoError

/-- A `*grpc.ClientConn`. -/
structure ClientConn where
  id : Nat
deriving DecidableEq, Repr

/-- Observable actions of the readiness handler. -/
inductive Act where
  | pingContext (ctx : context.Context)
  | isConnectionServing (ctx : context.Context) (name : String) (conn : ClientConn)
  | writeHeader (code : Nat)
deriving DecidableEq, Repr

/-- The loop `for name, conn := range connMap`, over the entries in the order
the range visits them, followed by the rest of the function. -/
def BuildReadinessHandler.checkConns
    (IsConnectionServing : context.Context → String → ClientConn → Bool) (r : http.Request) :
    List (String × ClientConn) → List Act × Option GoError
  | [] => ([Act.writeHeader http.StatusNoContent], none)
  | (name, conn) :: rest =>
    if !IsConnectionServing r.Context name conn then
      ([Act.isConnectionServing r.Context name conn],
        some (GoError.new ("gRPC connection " ++ name ++ " is not serving")))
    else
      ((Act.isConnectionServing r.Context name conn) ::
          (BuildReadinessHandler.checkConns IsConnectionServing r rest).1,
        (BuildReadinessHandler.checkConns IsConnectionServing r rest).2)

/-- BuildReadinessHandler provides readiness handler: the function `fn`, with
its actions and the error it returns. -/
def BuildReadinessHandler (db : Option DB) (connMap : List (String × ClientConn))
    (IsConnectionServing : context.Context → String → ClientConn → Bool) (r : http.Request) :
    List Act × Option GoError :=
  match db with
  | some d =>
    match d.PingContext r.Context with
    | some err => ([Act.pingContext r.Context], some (GoError.wrap err))
    | none =>
      (Act.pingContext r.Context ::
          (BuildReadinessHandler.checkConns IsConnectionServing r connMap).1,
        (BuildReadinessHandler.checkConns IsConnectionServing r connMap).2)
  | none => BuildReadinessHandler.checkConns IsConnectionServing r connMap

/-- The status codes written with `w.WriteHeader`, in order. -/
def statusWrites : List Act → List Nat
  | [] => []
  | Act.writeHeader code :: rest => code :: statusWrites rest
  | _ :: rest => statusWrites rest

/-- How many connections were checked with `IsConnectionServing`. -/
def connChecks : List Act → Nat
  | [] => 0
  | Act.isConnectionServing _ _ _ :: rest => connChecks rest + 1
  | _ :: rest => connChecks rest

end handlers

/-! ## panic_recover.go -/

namespace recover

open Go

/-- The struct `response.HTTPError`. -/
structure HTTPError where
  Code : Nat
  Message : String
deriving DecidableEq, Repr

/-- A write on the `http.ResponseWriter`. -/
inductive Write where
  | header (code : Nat)
  | body (bytes : List Nat)
deriving DecidableEq, Repr

/-- Observable actions of the middleware and of the handler it wraps. -/
inductive Act where
  /-- The call `next.ServeHTTP(w, r)`. -/
  | serveHTTP (r : http.Request)
  /-- A write the wrapped handler made on `w`. -/
  | nextWrote (w : Write)
  /-- The call `log.Critical(r.Context(), format, rec)`. -/
  | logCritical (ctx : context.Context) (format : String) (rec : PanicValue)
  /-- The call `w.WriteHeader(code)` by the middleware. -/
  | writeHeader (code : Nat)
  /-- The call `json.NewEncoder(w).Encode(e)` by the middleware. -/
  | encode (e : HTTPError)
deriving DecidableEq, Repr

/-- An `http.Handler`: what `ServeHTTP(w, r)` writes on `w`, and whether it
returns or panics. -/
abbrev Handler := http.Request → List Write × Res Unit

/-- The call `next.ServeHTTP(w, r)`. -/
def callNext (next : Handler) (r : http.Request) : Run Act Unit :=
  ⟨Act.serveHTTP r :: (next r).1.map Act.nextWrote, (next r).2⟩

/-- New creates new panic recover middleware: the function `fn` around `next`. -/
def New (next : Handler) (r : http.Request) : Run Act Unit :=
  Run.deferRecover (callNext next r)
    (fun rec =>
      match rec with
      | some v => do
          Run.act (Act.logCritical r.Context "Recovered in f %v" v)
          Run.act (Act.writeHeader http.StatusInternalServerError)
          Run.act (Act.encode { Code := http.StatusInternalServerError,
                                Message := http.StatusText http.StatusInternalServerError })
      | none => pure ())

/-- The actions of the middleware itself: everything but the call of `next`
and what `next` wrote. -/
def own : List Act → List Act
  | [] => []
  | Act.serveHTTP _ :: rest => own rest
  | Act.nextWrote _ :: rest => own rest
  | a :: rest => a :: own rest

/-- How many times `next.ServeHTTP` is called. -/
def nextCalls : List Act → Nat
  | [] => 0
  | Act.serveHTTP _ :: rest => nextCalls rest + 1
  | _ :: rest => nextCalls rest

end recover


/-! ## Sample collaborators, used to instantiate the theorems -/

namespace sample

open Go

/-- A live context without flags. -/
def ctx : context.Context := ⟨none, []⟩

/-- A repository whose `Get` panics. -/
def repoGetPanics : client.Repository :=
  { Get := fun _ => Res.panic ⟨"nil pointer dereference"⟩
    Save := fun _ _ => Res.ok none }

/-- A repository whose `Get` reports that nothing is stored. -/
def repoNotFound : client.Repository :=
  { Get := fun _ => Res.ok (⟨0⟩, some (GoError.typed ErrKind.NotFound 1))
    Save := fun _ _ => Res.ok none }

/-- A repository that finds every aggregate and saves without error. -/
def repoFine : client.Repository :=
  { Get := fun _ => Res.ok (⟨1⟩, none)
    Save := fun _ _ => Res.ok none }

/-- An aggregate whose mutations succeed and move the state on by one. -/
def aggFine : client.Aggregate :=
  { New := ⟨0⟩
    Remove := fun c => Res.ok (⟨c.state + 1⟩, none)
    Create := fun c _ => Res.ok (⟨c.state + 1⟩, none) }

/-- A Remove command. -/
def removeCmd : client.Remove := ⟨⟨"6ba7b810-9dad-11d1-80b4-00c04fd430c8"⟩⟩

/-- The result channel as `DispatchCommand` leaves it when it returns: made
with `make(chan error)` and closed by the deferred `close(out)`. -/
def closedOut : Chan := (Go.make 0).close

/-- The error `context.Canceled`. -/
def Canceled : GoError := GoError.new "context canceled"

/-- A context that is cancelled while the caller waits. -/
def cancelledCtx : context.Context := ⟨some Canceled, []⟩

/-- A dispatch request. -/
def request : grpc.DispatchCommandRequest := ⟨"register-user-with-email", [123, 125]⟩

/-- A builder that decodes every request into a command. -/
def buildOk : grpc.Builder :=
  fun _ _ payload => Res.ok (⟨⟨"*user", "RegisterWithEmail"⟩, payload⟩, none)

/-- A builder that rejects every request. -/
def buildFails : grpc.Builder :=
  fun _ _ _ => Res.ok (⟨⟨"", ""⟩, []⟩, some (GoError.typed ErrKind.NotFound 2))

/-- A server whose bus runs a handler that succeeds and writes nil to `out`. -/
def server : grpc.userServer := ⟨⟨fun _ _ _ => ([none], Res.ok ())⟩⟩

/-- A server whose bus never writes to `out`. -/
def silentServer : grpc.userServer := ⟨⟨fun _ _ _ => ([], Res.ok ())⟩⟩

/-- Two stored users. -/
def rows : List grpc.mysqlUser :=
  [⟨⟨"id-1"⟩, "a@b.com", "fb-1", "g-1"⟩, ⟨⟨"id-2"⟩, "c@d.com", "fb-2", "g-2"⟩]

/-- A database that counts two users and returns both. -/
def store : grpc.Store :=
  { Count := fun _ => (2, none)
    FindAll := fun _ _ _ => (rows, none) }

/-- A database handle whose ping fails. -/
def dbDown : handlers.DB := ⟨fun _ => some (GoError.new "connection refused")⟩

/-- An HTTP request. -/
def httpRequest : http.Request := ⟨ctx⟩

/-- Two downstream connections. -/
def conns : List (String × handlers.ClientConn) := [("auth", ⟨1⟩), ("user", ⟨2⟩)]

/-- A wrapped handler that writes a header and then panics. -/
def nextPanics : recover.Handler :=
  fun _ => ([recover.Write.header 200], Res.panic ⟨"index out of range"⟩)

end sample

/-! ## Lemmas on runs -/

namespace Go

@[simp] theorem Run.bind_eq {Act α β : Type} (m : Run Act α) (f : α → Run Act β) :
    (m >>= f) = Run.bind m f := rfl

@[simp] theorem Run.pure_eq {Act α : Type} (a : α) :
    (Pure.pure a : Run Act α) = Run.pure a := rfl

@[simp] theorem Proc.bind_unfold {Act α β : Type} (m : Proc Act α) (f : α → Proc Act β) :
    (m >>= f) = Proc.bind m f := rfl

@[simp] theorem Proc.pure_unfold {Act α : Type} (a : α) :
    (Pure.pure a : Proc Act α) = Proc.pure a := rfl

end Go

/-! ## Theorems on commands.go -/

section commands

open Go client

/-- A send that the channel takes is one delivered value and the handler goes
on. -/
theorem client.chanSend_takes {out : Chan} {receiving : Bool} (h : out.takes receiving)
    (v : Option GoError) : chanSend out receiving v = ⟨[Act.send v], Step.ok ()⟩ := by
  obtain ⟨hc, hr⟩ := h
  unfold chanSend Chan.send
  rcases hr with hr | hr
  · simp [hc, hr]
  · by_cases hb : out.buf.length < out.cap <;> simp [hc, hr, hb]

/-- A send on a closed channel delivers nothing and panics. -/
theorem client.chanSend_closed {out : Chan} (h : out.closed = true) (receiving : Bool)
    (v : Option GoError) :
    chanSend out receiving v = ⟨[Act.sendFailed v], Step.panic sendOnClosed⟩ := by
  simp [chanSend, Chan.send, h]

/-- What a send does with a channel does not depend on the value sent. -/
theorem client.chanSend_uniform (out : Chan) (receiving : Bool) :
    (∀ v, chanSend out receiving v = ⟨[Act.send v], Step.ok ()⟩) ∨
    (∀ v, chanSend out receiving v = ⟨[Act.sendFailed v], Step.panic sendOnClosed⟩) ∨
    (∀ v, chanSend out receiving v = ⟨[Act.sendFailed v], Step.blocked⟩) := by
  unfold chanSend Chan.send
  by_cases hc : out.closed = true
  · right; left; intro v; simp [hc]
  · by_cases hb : out.buf.length < out.cap
    · left; intro v; simp [hc, hb]
    · cases receiving
      · right; right; intro v; simp [hc, hb]
      · left; intro v; simp [hc, hb]

/-- In every run of the two handlers, whatever the channel and the
collaborators do, no send statement follows a send that was taken. -/
theorem client.no_send_after_taken (repository : Repository) (agg : Aggregate)
    (ctx : context.Context) (out : Chan) (receiving : Bool) :
    (∀ c : Remove,
      noSendAfterTaken (OnRemove repository agg ctx c out receiving).trace = true) ∧
    (∀ c : Create,
      noSendAfterTaken (OnCreate repository agg ctx c out receiving).trace = true) := by
  refine ⟨?_, ?_⟩
  · intro c
    rcases h1 : repository.Get c.ID with ⟨cl, _ | e⟩ | v
    · rcases h2 : agg.Remove cl with ⟨cl2, _ | e⟩ | v
      · rcases h3 : repository.Save
          (executioncontext.WithFlag ctx executioncontext.Flag.LIVE) cl2 with saved | v <;>
        rcases client.chanSend_uniform out receiving with hs | hs | hs <;>
          simp [OnRemove, OnRemove.body, Proc.deferRecover, Proc.bind, Proc.call, Proc.act,
            recoverCommandHandler, Res.toStep, hs, Proc.pure, noSendAfterTaken, Act.isSend,
            h1, h2, h3]
      · rcases client.chanSend_uniform out receiving with hs | hs | hs <;>
          simp [OnRemove, OnRemove.body, Proc.deferRecover, Proc.bind, Proc.call, Proc.act,
            recoverCommandHandler, Res.toStep, hs, Proc.pure, noSendAfterTaken, Act.isSend,
            h1, h2]
      · rcases client.chanSend_uniform out receiving with hs | hs | hs <;>
          simp [OnRemove, OnRemove.body, Proc.deferRecover, Proc.bind, Proc.call, Proc.act,
            recoverCommandHandler, Res.toStep, hs, Proc.pure, noSendAfterTaken, Act.isSend,
            h1, h2]
    · rcases client.chanSend_uniform out receiving with hs | hs | hs <;>
        simp [OnRemove, OnRemove.body, Proc.deferRecover, Proc.bind, Proc.call, Proc.act,
          recoverCommandHandler, Res.toStep, hs, Proc.pure, noSendAfterTaken, Act.isSend, h1]
    · rcases client.chanSend_uniform out receiving with hs | hs | hs <;>
        simp [OnRemove, OnRemove.body, Proc.deferRecover, Proc.bind, Proc.call, Proc.act,
          recoverCommandHandler, Res.toStep, hs, Proc.pure, noSendAfterTaken, Act.isSend, h1]
  · intro c
    rcases h2 : agg.Create agg.New c.ClientInfo with ⟨cl2, _ | e⟩ | v
    · rcases h3 : repository.Save
        (executioncontext.WithFlag ctx executioncontext.Flag.LIVE) cl2 with saved | v <;>
      rcases client.chanSend_uniform out receiving with hs | hs | hs <;>
        simp [OnCreate, OnCreate.body, Proc.deferRecover, Proc.bind, Proc.call, Proc.act,
          recoverCommandHandler, Res.toStep, hs, Proc.pure, noSendAfterTaken, Act.isSend,
          h2, h3]
    · rcases client.chanSend_uniform out receiving with hs | hs | hs <;>
        simp [OnCreate, OnCreate.body, Proc.deferRecover, Proc.bind, Proc.call, Proc.act,
          recoverCommandHandler, Res.toStep, hs, Proc.pure, noSendAfterTaken, Act.isSend, h2]
    · rcases client.chanSend_uniform out receiving with hs | hs | hs <;>
        simp [OnCreate, OnCreate.body, Proc.deferRecover, Proc.bind, Proc.call, Proc.act,
          recoverCommandHandler, Res.toStep, hs, Proc.pure, noSendAfterTaken, Act.isSend, h2]

/-- With `out` closed, every run of the two handlers delivers nothing and ends
in the panic of a send on a closed channel, raised inside
`recoverCommandHandler`. -/
theorem client.closed_out_panics (repository : Repository) (agg : Aggregate)
    (ctx : context.Context) (out : Chan) (receiving : Bool) (h : out.closed = true) :
    (∀ c : Remove,
      (OnRemove repository agg ctx c out receiving).res = Step.panic sendOnClosed ∧
      sends (OnRemove repository agg ctx c out receiving).trace = []) ∧
    (∀ c : Create,
      (OnCreate repository agg ctx c out receiving).res = Step.panic sendOnClosed ∧
      sends (OnCreate repository agg ctx c out receiving).trace = []) := by
  refine ⟨?_, ?_⟩
  · intro c
    rcases h1 : repository.Get c.ID with ⟨cl, _ | e⟩ | v
    · rcases h2 : agg.Remove cl with ⟨cl2, _ | e⟩ | v
      · rcases h3 : repository.Save
          (executioncontext.WithFlag ctx executioncontext.Flag.LIVE) cl2 with saved | v <;>
          simp [OnRemove, OnRemove.body, Proc.deferRecover, Proc.bind, Proc.call, Proc.act,
            Proc.recovered, recoverCommandHandler, Res.toStep, client.chanSend_closed h,
            sends, h1, h2, h3]
      · simp [OnRemove, OnRemove.body, Proc.deferRecover, Proc.bind, Proc.call, Proc.act,
          Proc.recovered, recoverCommandHandler, Res.toStep, client.chanSend_closed h,
          sends, h1, h2]
      · simp [OnRemove, OnRemove.body, Proc.deferRecover, Proc.bind, Proc.call, Proc.act,
          Proc.recovered, recoverCommandHandler, Res.toStep, client.chanSend_closed h,
          sends, h1, h2]
    · simp [OnRemove, OnRemove.body, Proc.deferRecover, Proc.bind, Proc.call, Proc.act,
        Proc.recovered, recoverCommandHandler, Res.toStep, client.chanSend_closed h,
        sends, h1]
    · simp [OnRemove, OnRemove.body, Proc.deferRecover, Proc.bind, Proc.call, Proc.act,
        Proc.recovered, recoverCommandHandler, Res.toStep, client.chanSend_closed h,
        sends, h1]
  · intro c
    rcases h2 : agg.Create agg.New c.ClientInfo with ⟨cl2, _ | e⟩ | v
    · rcases h3 : repository.Save
        (executioncontext.WithFlag ctx executioncontext.Flag.LIVE) cl2 with saved | v <;>
        simp [OnCreate, OnCreate.body, Proc.deferRecover, Proc.bind, Proc.call, Proc.act,
          Proc.recovered, recoverCommandHandler, Res.toStep, client.chanSend_closed h,
          sends, h2, h3]
    · simp [OnCreate, OnCreate.body, Proc.deferRecover, Proc.bind, Proc.call, Proc.act,
        Proc.recovered, recoverCommandHandler, Res.toStep, client.chanSend_closed h,
        sends, h2]
    · simp [OnCreate, OnCreate.body, Proc.deferRecover, Proc.bind, Proc.call, Proc.act,
        Proc.recovered, recoverCommandHandler, Res.toStep, client.chanSend_closed h,
        sends, h2]

/-- With `out` taking a send: whenever a collaborator call of a handler panics
with v, `recoverCommandHandler` receives v from `recover()`, the handler
returns normally and the one value delivered on `out` is
`Wrap(Errorf("[CommandHandler] Recovered in %v", v))`. -/
theorem client.panic_recovered_when_out_takes (repository : Repository) (agg : Aggregate)
    (ctx : context.Context) (out : Chan) (receiving : Bool) (ht : out.takes receiving)
    (v : PanicValue) :
    (∀ c : Remove, RemoveFault repository agg ctx c v →
      (OnRemove.body repository agg ctx c out receiving).recovered = some v ∧
      (OnRemove repository agg ctx c out receiving).res = Step.ok () ∧
      sends (OnRemove repository agg ctx c out receiving).trace =
        [some (GoError.wrap (GoError.errorf "[CommandHandler] Recovered in %v" v))]) ∧
    (∀ c : Create, CreateFault repository agg ctx c v →
      (OnCreate.body repository agg ctx c out receiving).recovered = some v ∧
      (OnCreate repository agg ctx c out receiving).res = Step.ok () ∧
      sends (OnCreate repository agg ctx c out receiving).trace =
        [some (GoError.wrap (GoError.errorf "[CommandHandler] Recovered in %v" v))]) := by
  refine ⟨?_, ?_⟩
  · intro c h
    rcases h with h | ⟨cl, h1, h2⟩ | ⟨cl, cl2, h1, h2, h3⟩
    · simp [OnRemove, OnRemove.body, Proc.deferRecover, Proc.bind, Proc.call, Proc.act,
        Proc.recovered, recoverCommandHandler, Res.toStep, client.chanSend_takes ht, sends, h]
    · simp [OnRemove, OnRemove.body, Proc.deferRecover, Proc.bind, Proc.call, Proc.act,
        Proc.recovered, recoverCommandHandler, Res.toStep, client.chanSend_takes ht, sends,
        h1, h2]
    · simp [OnRemove, OnRemove.body, Proc.deferRecover, Proc.bind, Proc.call, Proc.act,
        Proc.recovered, recoverCommandHandler, Res.toStep, client.chanSend_takes ht, sends,
        h1, h2, h3]
  · intro c h
    rcases h with h | ⟨cl2, h1, h2⟩
    · simp [OnCreate, OnCreate.body, Proc.deferRecover, Proc.bind, Proc.call, Proc.act,
        Proc.recovered, recoverCommandHandler, Res.toStep, client.chanSend_takes ht, sends, h]
    · simp [OnCreate, OnCreate.body, Proc.deferRecover, Proc.bind, Proc.call, Proc.act,
        Proc.recovered, recoverCommandHandler, Res.toStep, client.chanSend_takes ht, sends,
        h1, h2]

/-- With `out` taking a send: in each error branch of the handlers the trace is
the calls made so far and the delivery of the error wrapped, without any call
of `repository.Save`. -/
theorem client.error_delivered_when_out_takes (repository : Repository) (agg : Aggregate)
    (ctx : context.Context) (out : Chan) (receiving : Bool) (ht : out.takes receiving) :
    (∀ (c : Remove) (cl : Client) (e : GoError),
      repository.Get c.ID = Res.ok (cl, some e) →
      OnRemove repository agg ctx c out receiving =
        ⟨[Act.repositoryGet c.ID, Act.send (some (GoError.wrap e))], Step.ok ()⟩) ∧
    (∀ (c : Remove) (cl cl2 : Client) (e : GoError),
      repository.Get c.ID = Res.ok (cl, none) → agg.Remove cl = Res.ok (cl2, some e) →
      OnRemove repository agg ctx c out receiving =
        ⟨[Act.repositoryGet c.ID, Act.clientRemove cl, Act.send (some (GoError.wrap e))],
          Step.ok ()⟩) ∧
    (∀ (c : Create) (cl2 : Client) (e : GoError),
      agg.Create agg.New c.ClientInfo = Res.ok (cl2, some e) →
      OnCreate repository agg ctx c out receiving =
        ⟨[Act.clientCreate agg.New c.ClientInfo, Act.send (some (GoError.wrap e))],
          Step.ok ()⟩) := by
  refine ⟨?_, ?_, ?_⟩
  · intro c cl e h
    simp [OnRemove, OnRemove.body, Proc.deferRecover, Proc.bind, Proc.call, Proc.act,
      Proc.recovered, recoverCommandHandler, Res.toStep, client.chanSend_takes ht, Proc.pure, h]
  · intro c cl cl2 e h1 h2
    simp [OnRemove, OnRemove.body, Proc.deferRecover, Proc.bind, Proc.call, Proc.act,
      Proc.recovered, recoverCommandHandler, Res.toStep, client.chanSend_takes ht, Proc.pure,
      h1, h2]
  · intro c cl2 e h
    simp [OnCreate, OnCreate.body, Proc.deferRecover, Proc.bind, Proc.call, Proc.act,
      Proc.recovered, recoverCommandHandler, Res.toStep, client.chanSend_takes ht, Proc.pure, h]

/-- With `out` taking a send: on the success path the trace of a handler is
exactly Get, the mutation, one Save on the mutated aggregate, and the delivery
of what that Save returned, and the handler returns. -/
theorem client.success_delivers_save_result_when_out_takes (repository : Repository)
    (agg : Aggregate) (ctx : context.Context) (out : Chan) (receiving : Bool)
    (ht : out.takes receiving) :
    (∀ (c : Remove) (cl cl2 : Client) (saved : Option GoError),
      repository.Get c.ID = Res.ok (cl, none) → agg.Remove cl = Res.ok (cl2, none) →
      repository.Save (executioncontext.WithFlag ctx executioncontext.Flag.LIVE) cl2
        = Res.ok saved →
      OnRemove repository agg ctx c out receiving =
        ⟨[Act.repositoryGet c.ID, Act.clientRemove cl,
          Act.repositorySave (executioncontext.WithFlag ctx executioncontext.Flag.LIVE) cl2,
          Act.send saved], Step.ok ()⟩) ∧
    (∀ (c : Create) (cl2 : Client) (saved : Option GoError),
      agg.Create agg.New c.ClientInfo = Res.ok (cl2, none) →
      repository.Save (executioncontext.WithFlag ctx executioncontext.Flag.LIVE) cl2
        = Res.ok saved →
      OnCreate repository agg ctx c out receiving =
        ⟨[Act.clientCreate agg.New c.ClientInfo,
          Act.repositorySave (executioncontext.WithFlag ctx executioncontext.Flag.LIVE) cl2,
          Act.send saved], Step.ok ()⟩) := by
  refine ⟨?_, ?_⟩
  · intro c cl cl2 saved h1 h2 h3
    simp [OnRemove, OnRemove.body, Proc.deferRecover, Proc.bind, Proc.call, Proc.act,
      Proc.recovered, recoverCommandHandler, Res.toStep, client.chanSend_takes ht, Proc.pure,
      h1, h2, h3]
  · intro c cl2 saved h2 h3
    simp [OnCreate, OnCreate.body, Proc.deferRecover, Proc.bind, Proc.call, Proc.act,
      Proc.recovered, recoverCommandHandler, Res.toStep, client.chanSend_takes ht, Proc.pure,
      h2, h3]

/-- C1, what the code does: on the result channel that DispatchCommand leaves
behind when the context fires first (unbuffered, closed), a handler whose
repository.Get panics recovers that panic, but the send of the error inside
recoverCommandHandler panics in turn: nothing is delivered on out, the stack is
not logged, and the handler ends in the panic of a send on a closed channel. -/
theorem client.recover_send_panics_on_closed_out :
    grpc.DispatchCommand sample.server sample.buildOk sample.cancelledCtx sample.request true
      = some ⟨some grpc.Empty.mk, some sample.Canceled, sample.closedOut⟩ ∧
    RemoveFault sample.repoGetPanics sample.aggFine sample.ctx sample.removeCmd
      ⟨"nil pointer dereference"⟩ ∧
    (OnRemove.body sample.repoGetPanics sample.aggFine sample.ctx sample.removeCmd
      sample.closedOut false).recovered = some ⟨"nil pointer dereference"⟩ ∧
    OnRemove sample.repoGetPanics sample.aggFine sample.ctx sample.removeCmd
        sample.closedOut false =
      ⟨[Act.repositoryGet sample.removeCmd.ID,
        Act.sendFailed (some (GoError.wrap (GoError.errorf "[CommandHandler] Recovered in %v"
          ⟨"nil pointer dereference"⟩)))],
       Step.panic sendOnClosed⟩ ∧
    sends (OnRemove sample.repoGetPanics sample.aggFine sample.ctx sample.removeCmd
        sample.closedOut false).trace = [] := by
  refine ⟨?_, Or.inl rfl, rfl, rfl, rfl⟩
  simp [grpc.DispatchCommand, grpc.DispatchCommand.worker, grpc.callPublish, Run.deferRecover,
    Run.bind, Run.call, Run.act, recovered, Run.pure, sample.server, sample.buildOk, grpc.sends,
    grpc.selectCase, sample.cancelledCtx, context.Context.Err, Go.make, Chan.close,
    sample.closedOut]

/-- C3, what the code does: on the closed result channel, a handler whose
repository.Get returns an error makes no call of repository.Save, but the send
of the wrapped error panics, recoverCommandHandler recovers that panic and its
own send panics too: nothing is delivered on out and the handler ends in the
panic of a send on a closed channel. -/
theorem client.error_not_delivered_on_closed_out :
    sample.repoNotFound.Get sample.removeCmd.ID
      = Res.ok (⟨0⟩, some (GoError.typed ErrKind.NotFound 1)) ∧
    OnRemove sample.repoNotFound sample.aggFine sample.ctx sample.removeCmd
        sample.closedOut false =
      ⟨[Act.repositoryGet sample.removeCmd.ID,
        Act.sendFailed (some (GoError.wrap (GoError.typed ErrKind.NotFound 1))),
        Act.sendFailed (some (GoError.wrap (GoError.errorf "[CommandHandler] Recovered in %v"
          sendOnClosed)))],
       Step.panic sendOnClosed⟩ ∧
    saves (OnRemove sample.repoNotFound sample.aggFine sample.ctx sample.removeCmd
        sample.closedOut false).trace = [] ∧
    sends (OnRemove sample.repoNotFound sample.aggFine sample.ctx sample.removeCmd
        sample.closedOut false).trace = [] :=
  ⟨rfl, rfl, rfl, rfl⟩

/-- C4, what the code does: on the closed result channel, a handler whose
collaborators all return without panic or error runs Get, Remove and Save, then
the send of what Save returned panics, recoverCommandHandler recovers that
panic and its own send panics too: two send statements are run, nothing is
delivered on out, and the handler ends in the panic of a send on a closed
channel. -/
theorem client.success_ends_in_panic_on_closed_out :
    (∀ v, ¬ RemoveFault sample.repoFine sample.aggFine sample.ctx sample.removeCmd v) ∧
    OnRemove sample.repoFine sample.aggFine sample.ctx sample.removeCmd
        sample.closedOut false =
      ⟨[Act.repositoryGet sample.removeCmd.ID, Act.clientRemove ⟨1⟩,
        Act.repositorySave
          (executioncontext.WithFlag sample.ctx executioncontext.Flag.LIVE) ⟨2⟩,
        Act.sendFailed none,
        Act.sendFailed (some (GoError.wrap (GoError.errorf "[CommandHandler] Recovered in %v"
          sendOnClosed)))],
       Step.panic sendOnClosed⟩ ∧
    sends (OnRemove sample.repoFine sample.aggFine sample.ctx sample.removeCmd
        sample.closedOut false).trace = [] := by
  refine ⟨?_, rfl, rfl⟩
  intro v h
  rcases h with h | ⟨_, _, h⟩ | ⟨_, _, _, _, h⟩ <;> cases h

/-- C8: GetName gives the same string for any two Remove values and for any two
Create values, and the name of a Remove differs from the name of a Create. -/
theorem client.GetName_depends_on_type_only :
    (∀ a b : Remove, a.GetName = b.GetName) ∧
    (∀ a b : Create, a.GetName = b.GetName) ∧
    (∀ (a : Remove) (b : Create), a.GetName ≠ b.GetName) := by
  refine ⟨fun _ _ => rfl, fun _ _ => rfl, ?_⟩
  intro a b
  simp [Remove.GetName, Create.GetName, SprintfT, Remove.goType, Create.goType]

end commands

/-! ## Theorems on server.go -/

section server

open Go grpc

/-- Every return of `DispatchCommand` leaves the result channel unbuffered and
closed. -/
theorem grpc.DispatchCommand_closes_out (s : userServer) (buildDomainCommand : Builder)
    (ctx : context.Context) (r : DispatchCommandRequest) (ctxFirst : Bool)
    (ret : DispatchReturn)
    (h : DispatchCommand s buildDomainCommand ctx r ctxFirst = some ret) :
    ret.out = ⟨0, [], true⟩ := by
  unfold DispatchCommand at h
  split at h
  · cases h
  · cases h
    rfl
  · cases h
    rfl

/-- C2, what the code does: with the context cancelled before the handler
writes, DispatchCommand returns ctx.Err() and leaves the result channel with
capacity 0 and closed, so the later write of the handler (here nil, the handler
succeeded) is a send on a closed channel, a run-time panic, whether or not
anybody is receiving; so is the send of any other value, the error of a
deferred recover included. -/
theorem grpc.late_write_hits_closed_channel :
    sends (DispatchCommand.worker sample.server sample.buildOk sample.cancelledCtx
      sample.request).trace = [none] ∧
    DispatchCommand sample.server sample.buildOk sample.cancelledCtx sample.request true
      = some ⟨some Empty.mk, some sample.Canceled, ⟨0, [], true⟩⟩ ∧
    Chan.send ⟨0, [], true⟩ none false = SendOutcome.fault ∧
    Chan.send ⟨0, [], true⟩ none true = SendOutcome.fault ∧
    ∀ (v : Option GoError) (receiving : Bool),
      Chan.send ⟨0, [], true⟩ v receiving = SendOutcome.fault := by
  refine ⟨?_, ?_, rfl, rfl, fun _ _ => rfl⟩
  · simp [DispatchCommand.worker, callPublish, Run.deferRecover, Run.bind, Run.call, Run.act,
      recovered, Run.pure, sample.server, sample.buildOk, sends]
  · simp [DispatchCommand, DispatchCommand.worker, callPublish, Run.deferRecover, Run.bind,
      Run.call, Run.act, recovered, Run.pure, sample.server, sample.buildOk, sends, selectCase,
      sample.cancelledCtx, context.Context.Err, Go.make, Chan.close]

/-- C5: when buildDomainCommand returns an error, the goroutine never calls
commandBus.Publish and sends exactly that error on out; and when the context is
not done first, DispatchCommand returns that error. -/
theorem grpc.build_error_returned_without_publish (s : userServer)
    (buildDomainCommand : Builder) (ctx : context.Context) (r : DispatchCommandRequest)
    (ctxFirst : Bool) (c : DomainCommand) (e : GoError)
    (h : buildDomainCommand ctx r.GetName r.GetPayload = Res.ok (c, some e)) :
    publishCalls (DispatchCommand.worker s buildDomainCommand ctx r).trace = 0 ∧
    sends (DispatchCommand.worker s buildDomainCommand ctx r).trace = [some e] ∧
    ((ctx.state = none ∨ ctxFirst = false) →
      ∃ ret, DispatchCommand s buildDomainCommand ctx r ctxFirst = some ret ∧
        ret.err = some e) := by
  have ht : (DispatchCommand.worker s buildDomainCommand ctx r).trace =
      [Act.buildDomainCommand ctx r.GetName r.GetPayload, Act.send (some e)] := by
    simp [DispatchCommand.worker, Run.deferRecover, Run.bind, Run.call, Run.act, recovered,
      Run.pure, h]
  refine ⟨?_, ?_, ?_⟩
  · simp [ht, publishCalls]
  · simp [ht, sends]
  · intro hc
    rcases hs : ctx.state with _ | ce
    · simp [DispatchCommand, ht, sends, selectCase, hs]
    · rcases hc with hc | hc
      · rw [hs] at hc
        cases hc
      · subst hc
        simp [DispatchCommand, ht, sends, selectCase, hs]

/-- Witness of C5: a builder that rejects the request, with a live context. -/
theorem grpc.build_error_returned_without_publish_witness :
    publishCalls (DispatchCommand.worker sample.server sample.buildFails sample.ctx
      sample.request).trace = 0 ∧
    sends (DispatchCommand.worker sample.server sample.buildFails sample.ctx
      sample.request).trace = [some (GoError.typed ErrKind.NotFound 2)] ∧
    ((sample.ctx.state = none ∨ true = false) →
      ∃ ret, DispatchCommand sample.server sample.buildFails sample.ctx sample.request true
          = some ret ∧
        ret.err = some (GoError.typed ErrKind.NotFound 2)) :=
  grpc.build_error_returned_without_publish sample.server sample.buildFails sample.ctx
    sample.request true ⟨⟨"", ""⟩, []⟩ (GoError.typed ErrKind.NotFound 2) rfl

/-- The first value written to `out` when the build succeeds is the first value
the bus and its handler write. -/
theorem grpc.worker_offers_handler_result (s : userServer) (buildDomainCommand : Builder)
    (ctx : context.Context) (r : DispatchCommandRequest) (c : DomainCommand)
    (v : Option GoError) (rest : List (Option GoError)) (res : Res Unit)
    (hb : buildDomainCommand ctx r.GetName r.GetPayload = Res.ok (c, none))
    (hp : s.commandBus.Publish ctx (SprintfT c.goType) c = (v :: rest, res)) :
    (sends (DispatchCommand.worker s buildDomainCommand ctx r).trace).head? = some v := by
  rcases res with _ | pv <;>
    simp [DispatchCommand.worker, callPublish, Run.deferRecover, Run.bind, Run.call, Run.act,
      recovered, Run.pure, hb, hp, sends]

/-- C6: DispatchCommand returns exactly when the context is done or a value is
written to out.  A value written to out, with the context not first, is
returned as the error, as it is (nil when the handler wrote nil); a done
context that is first, or with nothing ever written, gives ctx.Err(), which is
not nil.  The response is a non-nil empty message in every case, the error is
never anything but ctx.Err() with the context done or the first value written
to out, and the call leaves out closed. -/
theorem grpc.dispatch_returns_ctx_err_or_received (s : userServer)
    (buildDomainCommand : Builder) (ctx : context.Context) (r : DispatchCommandRequest)
    (ctxFirst : Bool) :
    (∀ ret, DispatchCommand s buildDomainCommand ctx r ctxFirst = some ret →
      ret.response = some Empty.mk ∧
      ((ctx.state ≠ none ∧ ret.err = ctx.Err) ∨
        (sends (DispatchCommand.worker s buildDomainCommand ctx r).trace).head?
          = some ret.err)) ∧
    (ctx.state ≠ none →
      sends (DispatchCommand.worker s buildDomainCommand ctx r).trace = [] →
      ∃ ret, DispatchCommand s buildDomainCommand ctx r ctxFirst = some ret ∧
        ret.response = some Empty.mk ∧ ret.err = ctx.Err ∧ ret.err ≠ none) ∧
    (∀ v, (sends (DispatchCommand.worker s buildDomainCommand ctx r).trace).head? = some v →
      (ctx.state = none ∨ ctxFirst = false) →
      DispatchCommand s buildDomainCommand ctx r ctxFirst
        = some ⟨some Empty.mk, v, ⟨0, [], true⟩⟩) ∧
    (∀ e, ctx.state = some e →
      ((sends (DispatchCommand.worker s buildDomainCommand ctx r).trace).head? = none ∨
        ctxFirst = true) →
      DispatchCommand s buildDomainCommand ctx r ctxFirst
        = some ⟨some Empty.mk, some e, ⟨0, [], true⟩⟩) ∧
    (∀ c v rest res, buildDomainCommand ctx r.GetName r.GetPayload = Res.ok (c, none) →
      s.commandBus.Publish ctx (SprintfT c.goType) c = (v :: rest, res) →
      (ctx.state = none ∨ ctxFirst = false) →
      DispatchCommand s buildDomainCommand ctx r ctxFirst
        = some ⟨some Empty.mk, v, ⟨0, [], true⟩⟩) ∧
    ((DispatchCommand s buildDomainCommand ctx r ctxFirst).isSome = true ↔
      (ctx.state ≠ none ∨
        sends (DispatchCommand.worker s buildDomainCommand ctx r).trace ≠ [])) := by
  have hrecv : ∀ v,
      (sends (DispatchCommand.worker s buildDomainCommand ctx r).trace).head? = some v →
      (ctx.state = none ∨ ctxFirst = false) →
      DispatchCommand s buildDomainCommand ctx r ctxFirst
        = some ⟨some Empty.mk, v, ⟨0, [], true⟩⟩ := by
    intro v ho hc
    rcases hs : ctx.state with _ | ce
    · simp [DispatchCommand, selectCase, hs, ho, Go.make, Chan.close]
    · rcases hc with hc | hc
      · rw [hs] at hc
        cases hc
      · subst hc
        simp [DispatchCommand, selectCase, hs, ho, Go.make, Chan.close]
  refine ⟨?_, ?_, hrecv, ?_, ?_, ?_⟩
  · intro ret hret
    rcases hs : ctx.state with _ | ce <;>
      rcases ho : (sends (DispatchCommand.worker s buildDomainCommand ctx r).trace).head?
        with _ | v <;>
      simp only [DispatchCommand, selectCase, hs, ho] at hret
    · cases hret
    · cases hret
      simp
    · cases hret
      simp [context.Context.Err, hs]
    · cases ctxFirst
      · simp only [Bool.false_eq_true, if_false] at hret
        cases hret
        simp
      · simp only [if_true] at hret
        cases hret
        simp [context.Context.Err, hs]
  · intro hd hn
    rcases hs : ctx.state with _ | ce
    · exact absurd hs hd
    · simp [DispatchCommand, selectCase, hs, hn, context.Context.Err]
  · intro e hs hc
    rcases ho : (sends (DispatchCommand.worker s buildDomainCommand ctx r).trace).head?
      with _ | v
    · simp [DispatchCommand, selectCase, hs, ho, context.Context.Err, Go.make, Chan.close]
    · rcases hc with hc | hc
      · rw [ho] at hc
        cases hc
      · subst hc
        simp [DispatchCommand, selectCase, hs, ho, context.Context.Err, Go.make, Chan.close]
  · intro c v rest res hb hp hc
    exact hrecv v (grpc.worker_offers_handler_result s buildDomainCommand ctx r c v rest res
      hb hp) hc
  · rcases hs : ctx.state with _ | ce <;>
      rcases hl : sends (DispatchCommand.worker s buildDomainCommand ctx r).trace
        with _ | ⟨v, rest⟩ <;>
      cases ctxFirst <;>
      simp [DispatchCommand, selectCase, hs, hl]

/-- Witness of C6: a handler that succeeds and writes nil under a live context,
and a cancelled context with a bus that never writes. -/
theorem grpc.dispatch_returns_ctx_err_or_received_witness :
    DispatchCommand sample.server sample.buildOk sample.ctx sample.request false
      = some ⟨some Empty.mk, none, ⟨0, [], true⟩⟩ ∧
    sample.cancelledCtx.state ≠ none ∧
    sends (DispatchCommand.worker sample.silentServer sample.buildOk sample.cancelledCtx
      sample.request).trace = [] ∧
    ∃ ret, DispatchCommand sample.silentServer sample.buildOk sample.cancelledCtx
        sample.request false = some ret ∧
      ret.response = some Empty.mk ∧ ret.err = sample.cancelledCtx.Err ∧ ret.err ≠ none :=
  have hd : sample.cancelledCtx.state ≠ none := by simp [sample.cancelledCtx]
  have hn : sends (DispatchCommand.worker sample.silentServer sample.buildOk
      sample.cancelledCtx sample.request).trace = [] := by
    simp [DispatchCommand.worker, callPublish, Run.deferRecover, Run.bind, Run.call, Run.act,
      recovered, Run.pure, sample.silentServer, sample.buildOk, sends]
  ⟨(grpc.dispatch_returns_ctx_err_or_received sample.server sample.buildOk sample.ctx
      sample.request false).2.2.2.2.1 ⟨⟨"*user", "RegisterWithEmail"⟩, [123, 125]⟩ none []
      (Res.ok ()) rfl rfl (Or.inl rfl),
    hd, hn, (grpc.dispatch_returns_ctx_err_or_received sample.silentServer sample.buildOk
      sample.cancelledCtx sample.request false).2.1 hd hn⟩

end server

section listing

open Go grpc

/-- A value inside the `int32` range is left alone by the wrap. -/
theorem grpc.wrap32_of_range (x : Int) (h1 : -(2 ^ 31) ≤ x) (h2 : x < 2 ^ 31) :
    wrap32 x = x := by
  unfold wrap32
  omega

/-- The loop of `ListUsers` appends one converted row per result, in order. -/
theorem grpc.foldl_step_eq (results : List mysqlUser) (acc : List User) :
    results.foldl ListUsers.step acc =
      acc ++ results.map (fun u =>
        { Id := u.ID.String, Email := u.Email, FacebookId := u.FacebookID,
          GoogleId := u.GoogleID }) := by
  induction results generalizing acc with
  | nil => simp
  | cons u rest ih => simp [List.foldl, ih, ListUsers.step]

/-- C10: with the count read as total, ListUsers with total below 1 answers no
users and Total 0 after the count query alone; with total at least 1 it calls
FindAll once with limit r.Limit and offset page*limit - limit in int32
arithmetic, and when FindAll returns results the response has Total = total and
one user per result, in order, with Id, Email, FacebookId and GoogleId copied;
for page at least 1, limit at least 0 and page*limit below 2^31 that offset is
(page-1)*limit and is not negative. -/
theorem grpc.ListUsers_pages (db : Store) (ctx : context.Context) (r : ListUserRequest)
    (total : Int) (hc : db.Count ctx = (total, none)) :
    (total < 1 →
      ListUsers db ctx r = ⟨[DbAct.count ctx], some { Users := [], Total := 0 }, none⟩) ∧
    (1 ≤ total →
      (ListUsers db ctx r).calls =
        [DbAct.count ctx,
         DbAct.findAll ctx r.Limit (wrap32 (wrap32 (r.Page * r.Limit) - r.Limit))] ∧
      ∀ results,
        db.FindAll ctx r.Limit (wrap32 (wrap32 (r.Page * r.Limit) - r.Limit)) = (results, none) →
        (ListUsers db ctx r).err = none ∧
        (ListUsers db ctx r).response =
          some { Users := results.map (fun u =>
                   { Id := u.ID.String, Email := u.Email, FacebookId := u.FacebookID,
                     GoogleId := u.GoogleID }),
                 Total := total }) ∧
    (1 ≤ r.Page → 0 ≤ r.Limit → r.Page * r.Limit < 2 ^ 31 →
      wrap32 (wrap32 (r.Page * r.Limit) - r.Limit) = (r.Page - 1) * r.Limit ∧
      0 ≤ wrap32 (wrap32 (r.Page * r.Limit) - r.Limit)) := by
  refine ⟨?_, ?_, ?_⟩
  · intro ht
    simp [ListUsers, hc, ht]
  · intro ht
    have hnt : ¬ total < 1 := by omega
    constructor
    · rcases hf : db.FindAll ctx r.Limit (wrap32 (wrap32 (r.Page * r.Limit) - r.Limit))
        with ⟨results, _ | e⟩ <;>
        simp [ListUsers, hc, hnt, ListUsers.offset, ListUserRequest.GetPage,
          ListUserRequest.GetLimit, hf]
    · intro results hf
      simp [ListUsers, hc, hnt, ListUsers.offset, ListUserRequest.GetPage,
        ListUserRequest.GetLimit, hf, grpc.foldl_step_eq]
  · intro hp hl hm
    have hprod : (r.Page - 1) * r.Limit = r.Page * r.Limit - r.Limit := by ring
    have hnn : 0 ≤ (r.Page - 1) * r.Limit := mul_nonneg (by omega) hl
    rw [hprod] at hnn
    rw [hprod]
    generalize r.Page * r.Limit = m at hm hnn
    have h1 : wrap32 m = m := grpc.wrap32_of_range m (by omega) hm
    rw [h1]
    have h2 : wrap32 (m - r.Limit) = m - r.Limit :=
      grpc.wrap32_of_range _ (by omega) (by omega)
    rw [h2]
    exact ⟨rfl, hnn⟩

/-- Witness of C10: two users counted, page 3 of size 10. -/
theorem grpc.ListUsers_pages_witness :
    (1 ≤ (2 : Int) →
      (ListUsers sample.store sample.ctx ⟨3, 10⟩).calls =
        [DbAct.count sample.ctx,
         DbAct.findAll sample.ctx (10 : Int) (wrap32 (wrap32 ((3 : Int) * 10) - 10))] ∧
      ∀ results,
        sample.store.FindAll sample.ctx (10 : Int) (wrap32 (wrap32 ((3 : Int) * 10) - 10))
          = (results, none) →
        (ListUsers sample.store sample.ctx ⟨3, 10⟩).err = none ∧
        (ListUsers sample.store sample.ctx ⟨3, 10⟩).response =
          some { Users := results.map (fun u =>
                   { Id := u.ID.String, Email := u.Email, FacebookId := u.FacebookID,
                     GoogleId := u.GoogleID }),
                 Total := 2 }) ∧
    wrap32 (wrap32 ((3 : Int) * 10) - 10) = (3 - 1) * 10 ∧
    0 ≤ wrap32 (wrap32 ((3 : Int) * 10) - 10) :=
  ⟨(grpc.ListUsers_pages sample.store sample.ctx ⟨3, 10⟩ 2 rfl).2.1,
   (grpc.ListUsers_pages sample.store sample.ctx ⟨3, 10⟩ 2 rfl).2.2
     (by decide) (by decide) (by decide)⟩

end listing

/-! ## Theorems on health.go -/

section health

open Go handlers

/-- The connection loop: with every connection serving it ends in one write of
204 and nil; with one not serving it returns an error and writes no status. -/
theorem handlers.checkConns_cases
    (IsConnectionServing : context.Context → String → ClientConn → Bool) (r : http.Request)
    (conns : List (String × ClientConn)) :
    ((∀ p ∈ conns, IsConnectionServing r.Context p.1 p.2 = true) →
      (BuildReadinessHandler.checkConns IsConnectionServing r conns).2 = none ∧
      statusWrites (BuildReadinessHandler.checkConns IsConnectionServing r conns).1
        = [http.StatusNoContent]) ∧
    (¬ (∀ p ∈ conns, IsConnectionServing r.Context p.1 p.2 = true) →
      (BuildReadinessHandler.checkConns IsConnectionServing r conns).2 ≠ none ∧
      statusWrites (BuildReadinessHandler.checkConns IsConnectionServing r conns).1 = []) := by
  induction conns with
  | nil => simp [BuildReadinessHandler.checkConns, statusWrites]
  | cons p rest ih =>
    obtain ⟨name, conn⟩ := p
    by_cases hs : IsConnectionServing r.Context name conn = true
    · constructor
      · intro hall
        have hrest : ∀ p ∈ rest, IsConnectionServing r.Context p.1 p.2 = true :=
          fun p hp => hall p (List.mem_cons_of_mem _ hp)
        simpa [BuildReadinessHandler.checkConns, hs, statusWrites] using ih.1 hrest
      · intro hnot
        have hrest : ¬ ∀ p ∈ rest, IsConnectionServing r.Context p.1 p.2 = true := by
          intro hall
          apply hnot
          intro p hp
          rcases List.mem_cons.mp hp with rfl | hp
          · exact hs
          · exact hall p hp
        simpa [BuildReadinessHandler.checkConns, hs, statusWrites] using ih.2 hrest
    · constructor
      · intro hall
        exact absurd (hall (name, conn) (List.mem_cons_self _ _)) hs
      · intro _
        simp [BuildReadinessHandler.checkConns, hs, statusWrites]

/-- C7: the function of the readiness handler returns nil and writes status 204
exactly when db is nil or its ping returns nil, and every connection of connMap
is serving; in every other case it returns an error and writes no status; and
when the ping fails it returns the ping error wrapped without checking any
connection. -/
theorem handlers.readiness_iff (db : Option DB) (connMap : List (String × ClientConn))
    (IsConnectionServing : context.Context → String → ClientConn → Bool) (r : http.Request) :
    (((BuildReadinessHandler db connMap IsConnectionServing r).2 = none ∧
        statusWrites (BuildReadinessHandler db connMap IsConnectionServing r).1
          = [http.StatusNoContent]) ↔
      ((db = none ∨ ∃ d, db = some d ∧ d.PingContext r.Context = none) ∧
        ∀ p ∈ connMap, IsConnectionServing r.Context p.1 p.2 = true)) ∧
    (¬ ((db = none ∨ ∃ d, db = some d ∧ d.PingContext r.Context = none) ∧
        ∀ p ∈ connMap, IsConnectionServing r.Context p.1 p.2 = true) →
      (BuildReadinessHandler db connMap IsConnectionServing r).2 ≠ none ∧
      statusWrites (BuildReadinessHandler db connMap IsConnectionServing r).1 = []) ∧
    (∀ d e, db = some d → d.PingContext r.Context = some e →
      (BuildReadinessHandler db connMap IsConnectionServing r).2 = some (GoError.wrap e) ∧
      connChecks (BuildReadinessHandler db connMap IsConnectionServing r).1 = 0) := by
  have hc := handlers.checkConns_cases IsConnectionServing r connMap
  have key : (¬ ((db = none ∨ ∃ d, db = some d ∧ d.PingContext r.Context = none) ∧
        ∀ p ∈ connMap, IsConnectionServing r.Context p.1 p.2 = true) →
      (BuildReadinessHandler db connMap IsConnectionServing r).2 ≠ none ∧
      statusWrites (BuildReadinessHandler db connMap IsConnectionServing r).1 = []) := by
    intro hnot
    rcases db with _ | d
    · have hn : ¬ ∀ p ∈ connMap, IsConnectionServing r.Context p.1 p.2 = true :=
        fun hall => hnot ⟨Or.inl rfl, hall⟩
      simpa [BuildReadinessHandler] using hc.2 hn
    · rcases hp : d.PingContext r.Context with _ | e
      · have hn : ¬ ∀ p ∈ connMap, IsConnectionServing r.Context p.1 p.2 = true :=
          fun hall => hnot ⟨Or.inr ⟨d, rfl, hp⟩, hall⟩
        simpa [BuildReadinessHandler, hp, statusWrites] using hc.2 hn
      · simp [BuildReadinessHandler, hp, statusWrites]
  refine ⟨⟨?_, ?_⟩, key, ?_⟩
  · intro hok
    by_contra hnot
    exact (key hnot).1 hok.1
  · rintro ⟨hdb, hall⟩
    rcases hdb with rfl | ⟨d, rfl, hp⟩
    · simpa [BuildReadinessHandler] using hc.1 hall
    · simpa [BuildReadinessHandler, hp, statusWrites] using hc.1 hall
  · intro d e hd hp
    subst hd
    simp [BuildReadinessHandler, hp, connChecks]

/-- Witness of C7: a database whose ping fails, in front of two connections. -/
theorem handlers.readiness_iff_witness :
    (BuildReadinessHandler (some sample.dbDown) sample.conns (fun _ _ _ => true)
        sample.httpRequest).2 = some (GoError.wrap (GoError.new "connection refused")) ∧
    connChecks (BuildReadinessHandler (some sample.dbDown) sample.conns (fun _ _ _ => true)
        sample.httpRequest).1 = 0 :=
  (handlers.readiness_iff (some sample.dbDown) sample.conns (fun _ _ _ => true)
    sample.httpRequest).2.2 sample.dbDown (GoError.new "connection refused") rfl rfl

end health

/-! ## Theorems on panic_recover.go -/

section middleware

open Go recover

/-- C9: the middleware calls next exactly once and always returns normally;
when next returns, the trace is the call of next and what next wrote, with no
action of the middleware itself; when next panics with v, the middleware adds,
after what next wrote, one critical log of v, WriteHeader(500), and the encoding
of an HTTPError with Code 500 and Message "Internal Server Error". -/
theorem recover.middleware_contains_panic (next : Handler) (r : http.Request) :
    nextCalls (New next r).trace = 1 ∧
    (New next r).res = Res.ok () ∧
    ((next r).2 = Res.ok () →
      (New next r).trace = Act.serveHTTP r :: (next r).1.map Act.nextWrote ∧
      own (New next r).trace = []) ∧
    (∀ v, (next r).2 = Res.panic v →
      (New next r).trace = Act.serveHTTP r :: (next r).1.map Act.nextWrote ++
        [Act.logCritical r.Context "Recovered in f %v" v, Act.writeHeader 500,
         Act.encode { Code := 500, Message := "Internal Server Error" }] ∧
      own (New next r).trace =
        [Act.logCritical r.Context "Recovered in f %v" v, Act.writeHeader 500,
         Act.encode { Code := 500, Message := "Internal Server Error" }]) := by
  have hcalls : ∀ ws : List Write, nextCalls (ws.map Act.nextWrote) = 0 := by
    intro ws
    induction ws with
    | nil => rfl
    | cons w rest ih => simpa [nextCalls] using ih
  have hcallsApp : ∀ (ws : List Write) (tail : List Act),
      nextCalls (ws.map Act.nextWrote ++ tail) = nextCalls tail := by
    intro ws tail
    induction ws with
    | nil => rfl
    | cons w rest ih => simpa [nextCalls] using ih
  have hownApp : ∀ (ws : List Write) (tail : List Act),
      own (ws.map Act.nextWrote ++ tail) = own tail := by
    intro ws tail
    induction ws with
    | nil => rfl
    | cons w rest ih => simpa [own] using ih
  have hown : ∀ ws : List Write, own (ws.map Act.nextWrote) = [] := by
    intro ws
    have := hownApp ws []
    simpa [own] using this
  rcases hn : (next r).2 with _ | v
  · refine ⟨?_, ?_, ?_, ?_⟩
    · simp [New, callNext, Run.deferRecover, recovered, hn, Run.pure, nextCalls, hcalls]
    · simp [New, callNext, Run.deferRecover, recovered, hn, Run.pure]
    · intro _
      simp [New, callNext, Run.deferRecover, recovered, hn, Run.pure, own, hown]
    · intro v hv
      cases hv
  · refine ⟨?_, ?_, ?_, ?_⟩
    · simp [New, callNext, Run.deferRecover, recovered, hn, Run.bind, Run.act, nextCalls,
        hcallsApp]
    · simp [New, callNext, Run.deferRecover, recovered, hn, Run.bind, Run.act]
    · intro hv
      cases hv
    · intro w hw
      cases hw
      simp [New, callNext, Run.deferRecover, recovered, hn, Run.bind, Run.act, own, hownApp,
        http.StatusInternalServerError, http.StatusText]

/-- Witness of C9: a wrapped handler that writes a header and then panics. -/
theorem recover.middleware_contains_panic_witness :
    (New sample.nextPanics sample.httpRequest).trace =
      Act.serveHTTP sample.httpRequest ::
        (sample.nextPanics sample.httpRequest).1.map Act.nextWrote ++
        [Act.logCritical sample.httpRequest.Context "Recovered in f %v"
           ⟨"index out of range"⟩, Act.writeHeader 500,
         Act.encode { Code := 500, Message := "Internal Server Error" }] ∧
    own (New sample.nextPanics sample.httpRequest).trace =
      [Act.logCritical sample.httpRequest.Context "Recovered in f %v"
         ⟨"index out of range"⟩, Act.writeHeader 500,
       Act.encode { Code := 500, Message := "Internal Server Error" }] :=
  (recover.middleware_contains_panic sample.nextPanics sample.httpRequest).2.2.2
    ⟨"index out of range"⟩ rfl

end middleware
